import Mathlib

/-!
Verification of the liquid-handler host controller (`src/main.py`) against its
natural-language specification.

The embedding is shallow: Python floats are modelled as rationals (`ℚ`), Python
ints as `ℤ`/`ℕ`, exceptions as `Option` (with `none` = the call raised), and the
mutable configuration dictionaries as explicit structure parameters (they are
loaded once at startup and only replaced wholesale by recalibration).  Every
definition mirrors the function of the same name in `src/main.py`.
-/

namespace LiquidHandler

/-! ## Coordinate resolver -/

/-- `CALIBRATION_PIN_CONFIG`: the single anchor all rack coordinates are
relative to (`PIN_X`, `PIN_Y`, `PIN_Z`). -/
structure CalibrationPin where
  pinX : ℚ
  pinY : ℚ
  pinZ : ℚ

/-- `resolve_coords(rel_x, rel_y)` (the two-argument form): adds the
calibration anchor to the relative offsets. -/
def resolve_coords (pin : CalibrationPin) (relX relY : ℚ) : ℚ × ℚ :=
  (pin.pinX + relX, pin.pinY + relY)

/-- `resolve_coords(0, 0, rel_z)[2]`: the absolute Z for a relative Z offset,
as used throughout the planner. -/
def resolve_z (pin : CalibrationPin) (relZ : ℚ) : ℚ :=
  pin.pinZ + relZ

/-- `_get_interpolated_coords(col_idx, row_idx, num_cols, num_rows,
start_x, start_y, end_x, end_y)`: independent linear interpolation on each
axis; each axis divides by `count - 1` only when `count > 1`, otherwise the
start value is used unchanged. -/
def _get_interpolated_coords (colIdx rowIdx : ℤ) (numCols numRows : ℕ)
    (startX startY endX endY : ℚ) : ℚ × ℚ :=
  let xPos :=
    if 1 < numCols then
      let xStep := (endX - startX) / ((numCols : ℚ) - 1)
      startX + colIdx * xStep
    else startX
  let yPos :=
    if 1 < numRows then
      let yStep := (endY - startY) / ((numRows : ℚ) - 1)
      startY + rowIdx * yStep
    else startY
  (xPos, yPos)

/-! ## Symbolic position keys

Python's `int(s)` on a well-key suffix: an optional sign followed by a
non-empty run of decimal digits parses; anything else raises `ValueError`
(modelled as `none`). -/

def digitsToNat? (cs : List Char) : Option ℕ :=
  if cs = [] then none
  else if cs.all Char.isDigit then
    some (cs.foldl (fun a c => a * 10 + (c.toNat - 48)) 0)
  else none

/-- `int(key[1:])` on a position-key suffix. -/
def pyInt? (cs : List Char) : Option ℤ :=
  match cs with
  | [] => none
  | c :: rest =>
    if c = '-' then (digitsToNat? rest).map (fun n => -(n : ℤ))
    else if c = '+' then (digitsToNat? rest).map (fun n => (n : ℤ))
    else (digitsToNat? (c :: rest)).map (fun n => (n : ℤ))

/-- Python `str.startswith(p)`. -/
def pyStartsWith (s : String) (p : List Char) : Bool :=
  p.isPrefixOf s.toList

/-- `self.plate_rows` -/
def plate_rows : List Char := ['A', 'B', 'C', 'D', 'E', 'F', 'G', 'H']

/-- The `A1_X .. H12_Y` entries of `PLATE_CONFIG` (the Z planes are carried
separately where needed). -/
structure PlateConfig where
  a1x : ℚ
  a1y : ℚ
  h12x : ℚ
  h12y : ℚ

/-- `get_well_coordinates(well_key)`.  `well_key[0]` raises `IndexError` on an
empty key, `int(well_key[1:])` raises `ValueError` on a non-numeric suffix and
`self.plate_rows.index(row_char)` raises `ValueError` on a row letter outside
`A..H`; all three raises are `none`. -/
def get_well_coordinates (pin : CalibrationPin) (cfg : PlateConfig)
    (wellKey : String) : Option (ℚ × ℚ) := do
  let rowChar ← wellKey.toList.head?
  let colNum ← pyInt? (wellKey.toList.drop 1)
  let rowIdx ← plate_rows.findIdx? (· = rowChar)
  let colIdx := colNum - 1
  let p := _get_interpolated_coords colIdx rowIdx 12 8 cfg.a1x cfg.a1y cfg.h12x cfg.h12y
  pure (resolve_coords pin p.1 p.2)

/-- The XY entries of `FALCON_RACK_CONFIG`. -/
structure FalconConfig where
  ml50x : ℚ
  ml50y : ℚ
  a1x : ℚ
  a1y : ℚ
  b3x : ℚ
  b3y : ℚ

/-- `get_falcon_coordinates(falcon_key)`.  Note the source order: the
`int(falcon_key[1:])` conversion runs *before* the row-membership check, so a
non-numeric suffix raises (`none`) even for a bad row letter, while a bad row
letter with a numeric suffix returns the literal sentinel `(0.0, 0.0)`
(not passed through `resolve_coords`). -/
def get_falcon_coordinates (pin : CalibrationPin) (cfg : FalconConfig)
    (falconKey : String) : Option (ℚ × ℚ) :=
  if falconKey = "50mL" then
    some (resolve_coords pin cfg.ml50x cfg.ml50y)
  else do
    let rowChar ← falconKey.toList.head?
    let colNum ← pyInt? (falconKey.toList.drop 1)
    let falconRows : List Char := ['A', 'B']
    if rowChar ∈ falconRows then
      let rowIdx : ℕ := falconRows.findIdx (· = rowChar)
      let colIdx := colNum - 1
      let p := _get_interpolated_coords colIdx rowIdx 3 2 cfg.a1x cfg.a1y cfg.b3x cfg.b3y
      pure (resolve_coords pin p.1 p.2)
    else
      pure ((0 : ℚ), (0 : ℚ))

/-- The XY entries of `_4ML_RACK_CONFIG`. -/
structure Rack4mlConfig where
  a1x : ℚ
  a1y : ℚ
  a8x : ℚ
  a8y : ℚ

/-- `get_4ml_coordinates(key)`: a key not starting with `"A"` returns the
literal sentinel `(0.0, 0.0)`; a key starting with `"A"` whose suffix is not
numeric raises `ValueError` (uncaught, so `none`). -/
def get_4ml_coordinates (pin : CalibrationPin) (cfg : Rack4mlConfig)
    (key : String) : Option (ℚ × ℚ) :=
  if ¬ pyStartsWith key ['A'] then some ((0 : ℚ), (0 : ℚ))
  else do
    let colNum ← pyInt? (key.toList.drop 1)
    let colIdx := colNum - 1
    let p := _get_interpolated_coords colIdx 0 8 1 cfg.a1x cfg.a1y cfg.a8x cfg.a8y
    pure (resolve_coords pin p.1 p.2)

/-- The XY entries of a 1×8 rack config (`{R}1_X, {R}1_Y, {R}8_X, {R}8_Y`). -/
structure Rack1x8Config where
  c1x : ℚ
  c1y : ℚ
  c8x : ℚ
  c8y : ℚ

/-- `get_1x8_rack_coordinates(key, config, row_char)`: the only resolver that
catches `ValueError`, so it is total — both malformed-key kinds (wrong row
prefix, non-numeric suffix) return the literal sentinel `(0.0, 0.0)`. -/
def get_1x8_rack_coordinates (pin : CalibrationPin) (cfg : Rack1x8Config)
    (rowChar : Char) (key : String) : ℚ × ℚ :=
  if ¬ pyStartsWith key [rowChar] then (0, 0)
  else
    match pyInt? (key.toList.drop 1) with
    | none => (0, 0)
    | some colNum =>
      let colIdx := colNum - 1
      let p := _get_interpolated_coords colIdx 0 8 1 cfg.c1x cfg.c1y cfg.c8x cfg.c8y
      resolve_coords pin p.1 p.2

/-! ## Tip inventory -/

/-- `self.tip_rows` -/
def tip_rows : List Char := ['A', 'B', 'C', 'D', 'E', 'F']

/-- `self.tip_cols` -/
def tip_cols : List Char := ['1', '2', '3', '4']

/-- The tip-well keys `f"{r}{c}"` in the order the nested loops of
`_find_next_available_tip` visit them (rows outer, columns inner:
row-major). -/
def tipKeys : List String :=
  tip_rows.flatMap (fun r => tip_cols.map (fun c => String.mk [r, c]))

/-- `_find_next_available_tip()`: scan `tip_rows × tip_cols` in row-major
order and return the first key whose inventory entry is still `True`
(fresh); `None` when every tip is consumed. -/
def _find_next_available_tip (tipInventory : String → Bool) : Option String :=
  tipKeys.find? (fun k => tipInventory k)

/-! ## String helpers (Python `str` methods used by the protocol engine) -/

/-- Python's `needle in haystack` substring test. -/
def containsSeq (needle : List Char) : List Char → Bool
  | [] => needle.isEmpty
  | c :: rest => needle.isPrefixOf (c :: rest) || containsSeq needle rest

/-- Python `str.upper()` (ASCII). -/
def pyUpper (s : String) : List Char := s.toList.map Char.toUpper

/-- Python `str.lower()` (ASCII). -/
def pyLower (s : String) : List Char := s.toList.map Char.toLower

/-- Python `str.strip()`: drop leading and trailing whitespace. -/
def pyStrip (cs : List Char) : List Char :=
  ((cs.dropWhile Char.isWhitespace).reverse.dropWhile Char.isWhitespace).reverse

/-! ## Device protocol engine -/

/-- The per-command timeout computed in `_send_lines_with_ok`: 200 s when the
upper-cased line contains `G28` or `G29` (homing / bed leveling), 60 s
otherwise. -/
def currentTimeout (line : String) : ℚ :=
  let cmdUpper := pyUpper line
  if containsSeq "G28".toList cmdUpper || containsSeq "G29".toList cmdUpper then
    200
  else
    60

/-- Whether `self.ok_event.wait(timeout=current_timeout)` returns `True` for
the `i`-th transmitted line: the acknowledgement arrival time (seconds after
the event was cleared; `none` = never arrives) must be within the line's
class timeout. -/
def ackWithin (ackTime : ℕ → Option ℚ) (i : ℕ) (line : String) : Bool :=
  match ackTime i with
  | some t => decide (t ≤ currentTimeout line)
  | none => false

/-- Outcome of `_send_lines_with_ok`: ran to completion, timed out waiting
for `ok` on the command at the given index, or observed the abort flag
before sending the command at the given index. -/
inductive SendOutcome where
  | completed : SendOutcome
  | timedOut (idx : ℕ) (line : String) : SendOutcome
  | abortedOut (idx : ℕ) : SendOutcome
deriving DecidableEq, Repr

/-- The loop body of `_send_lines_with_ok`, from command index `i` on.
`abortAt j` is the value of `self.is_aborted` observed at the top of
iteration `j` (the pause spin-wait only delays and is absorbed into the
observation); `ackTime j` is when the `ok` for the `j`-th sent line arrives.
Returns the list of lines actually transmitted and the outcome.  On a
timeout the line was already sent, the error is reported and the remaining
lines are never transmitted. -/
def sendLinesFrom (abortAt : ℕ → Bool) (ackTime : ℕ → Option ℚ) :
    ℕ → List String → List String × SendOutcome
  | _, [] => ([], .completed)
  | i, line :: rest =>
    if abortAt i then ([], .abortedOut i)
    else if ackWithin ackTime i line then
      let r := sendLinesFrom abortAt ackTime (i + 1) rest
      (line :: r.1, r.2)
    else ([line], .timedOut i line)

/-- `_send_lines_with_ok(lines)`. -/
def send_lines_with_ok (abortAt : ℕ → Bool) (ackTime : ℕ → Option ℚ)
    (lines : List String) : List String × SendOutcome :=
  sendLinesFrom abortAt ackTime 0 lines

/-! ## Reader loop -/

/-- What `_reader_loop` does with one complete received line. -/
structure ReaderAction where
  /-- `_parse_coordinates(text)` was called (position telemetry committed). -/
  parsedPosition : Bool
  /-- the line was forwarded to `rx_queue` as an opaque `[PRINTER]` message. -/
  forwardedToQueue : Bool
  /-- `self.ok_event.set()` was called (acknowledgement signal). -/
  ackSet : Bool
deriving DecidableEq, Repr

/-- The per-line classification of `_reader_loop`: strip the decoded line;
drop it when empty or containing the busy marker; otherwise compute
`is_ok = text.lower().startswith("ok")` and
`is_position = "X:" in text and "Y:" in text and "Z:" in text`; parse
coordinates when `is_position`, forward as opaque otherwise unless `is_ok`;
and set the ack event whenever `is_ok` — independently of `is_position`. -/
def readerClassify (rawLine : String) : ReaderAction :=
  let text := pyStrip rawLine.toList
  if text = [] then ⟨false, false, false⟩
  else if containsSeq "echo:busy".toList text then ⟨false, false, false⟩
  else
    let isOk := "ok".toList.isPrefixOf (text.map Char.toLower)
    let isPosition := containsSeq "X:".toList text
      && containsSeq "Y:".toList text
      && containsSeq "Z:".toList text
    { parsedPosition := isPosition
      forwardedToQueue := !isPosition && !isOk
      ackSet := isOk }

/-! ## Primitive motion commands

The planner emits formatted G-code strings; the embedding keeps their
structured numeric content (axis targets in machine coordinates, feed
rates), which is what the spec's travel/ordering properties are about. -/

inductive GCmd where
  /-- `"G90"` — absolute positioning. -/
  | g90 : GCmd
  /-- `"G0 Z{z} F{f}"` -/
  | moveZ (z f : ℚ) : GCmd
  /-- `"G0 X{x} Y{y} F{f}"` -/
  | moveXY (x y f : ℚ) : GCmd
  /-- `"G0 Y{y} F{f}"` -/
  | moveY (y f : ℚ) : GCmd
deriving DecidableEq, Repr

/-- `JOG_SPEED_XY` (default configuration value). -/
def JOG_SPEED_XY : ℚ := 8000

/-- `JOG_SPEED_Z` (default configuration value). -/
def JOG_SPEED_Z : ℚ := 8000

/-- `SMALL_VIAL_MODULES` (line 230): the low-clearance module group sharing
the 4 mL rack's shallow safe plane. -/
def SMALL_VIAL_MODULES : List String :=
  ["4ML", "FILTER_EPPI", "EPPI", "HPLC", "HPLC_INSERT", "SCREWCAP"]

/-- `_get_smart_travel_gcode(target_module, target_x, target_y,
module_abs_safe_z, start_module)`.  `currentMod` is
`start_module if start_module is not None else self.last_known_module`
(still possibly `None`); `z4mlSafeOff` is `_4ML_RACK_CONFIG["Z_SAFE"]` and
`globalSafeZOff` is `GLOBAL_SAFE_Z_OFFSET`. -/
def _get_smart_travel_gcode (pin : CalibrationPin) (z4mlSafeOff globalSafeZOff : ℚ)
    (targetModule : String) (targetX targetY moduleAbsSafeZ : ℚ)
    (currentMod : Option String) : List GCmd :=
  let globalSafeZ := resolve_z pin globalSafeZOff
  let useOptimizedZ :=
    (match currentMod with
     | some m => SMALL_VIAL_MODULES.contains m
     | none => false)
    && SMALL_VIAL_MODULES.contains targetModule
  let travelZ := if useOptimizedZ then resolve_z pin z4mlSafeOff else globalSafeZ
  if currentMod = some targetModule then
    [GCmd.g90,
     GCmd.moveZ moduleAbsSafeZ JOG_SPEED_Z,
     GCmd.moveXY targetX targetY JOG_SPEED_XY]
  else
    [GCmd.g90,
     GCmd.moveZ travelZ JOG_SPEED_Z,
     GCmd.moveXY targetX targetY JOG_SPEED_XY,
     GCmd.moveZ moduleAbsSafeZ JOG_SPEED_Z]

/-- `EJECT_STATION_CONFIG` (relative offsets). -/
structure EjectStationConfig where
  approachX : ℚ
  approachY : ℚ
  zSafe : ℚ
  zEjectStart : ℚ
  ejectTargetY : ℚ
  zRetract : ℚ

/-- `_get_eject_tip_commands()`: travel to workspace centre at global safe
Z, approach the eject station, lower, strip the tip by a Y sweep, retract,
return to global safe Z. -/
def _get_eject_tip_commands (pin : CalibrationPin) (cfg : EjectStationConfig)
    (safeCenterXOff safeCenterYOff globalSafeZOff : ℚ) : List GCmd :=
  let absAppX := pin.pinX + cfg.approachX
  let absAppY := pin.pinY + cfg.approachY
  let absSafeZ := resolve_z pin cfg.zSafe
  let absEjectStartZ := resolve_z pin cfg.zEjectStart
  let absTargetY := pin.pinY + cfg.ejectTargetY
  let absRetractZ := resolve_z pin cfg.zRetract
  let absCenterX := pin.pinX + safeCenterXOff
  let absCenterY := pin.pinY + safeCenterYOff
  let absCenterZ := resolve_z pin globalSafeZOff
  [GCmd.g90,
   GCmd.moveZ absCenterZ JOG_SPEED_Z,
   GCmd.moveXY absCenterX absCenterY JOG_SPEED_XY,
   GCmd.moveXY absAppX absAppY JOG_SPEED_XY,
   GCmd.moveZ absSafeZ JOG_SPEED_Z,
   GCmd.moveZ absEjectStartZ JOG_SPEED_Z,
   GCmd.moveY absTargetY 800,
   GCmd.moveZ absRetractZ 250,
   GCmd.moveZ absCenterZ JOG_SPEED_Z]

/-- `TIP_RACK_CONFIG` (relative offsets and Z planes). -/
structure TipRackConfig where
  a1x : ℚ
  a1y : ℚ
  f4x : ℚ
  f4y : ℚ
  zTravel : ℚ
  zPick : ℚ

/-- `get_tip_coordinates(tip_key)`: 6 rows × 4 columns, corners `A1`/`F4`.
Tip keys are two characters (`row_char = tip_key[0]`,
`col_num = int(tip_key[1])`); malformed keys raise. -/
def get_tip_coordinates (pin : CalibrationPin) (cfg : TipRackConfig)
    (tipKey : String) : Option (ℚ × ℚ) := do
  let rowChar ← tipKey.toList.head?
  let colChar ← (tipKey.toList.drop 1).head?
  let colNum ← pyInt? [colChar]
  let rowIdx ← tip_rows.findIdx? (· = rowChar)
  let colIdx := colNum - 1
  let p := _get_interpolated_coords colIdx rowIdx 4 6 cfg.a1x cfg.a1y cfg.f4x cfg.f4y
  pure (resolve_coords pin p.1 p.2)

/-- `_get_pick_tip_commands(tip_key, start_module)`: smart travel to the tip
rack, dip to the pick height, retract to the rack travel height.  The
`(0, 0)` fallback for the tip XY is unreachable for the keys produced by
`_find_next_available_tip`. -/
def _get_pick_tip_commands (pin : CalibrationPin) (tipCfg : TipRackConfig)
    (z4mlSafeOff globalSafeZOff : ℚ) (tipKey : String)
    (startModule : Option String) : List GCmd :=
  let txy := (get_tip_coordinates pin tipCfg tipKey).getD (0, 0)
  let absRackSafeZ := resolve_z pin tipCfg.zTravel
  let absPickZ := resolve_z pin tipCfg.zPick
  _get_smart_travel_gcode pin z4mlSafeOff globalSafeZOff "TIPS" txy.1 txy.2
      absRackSafeZ startModule
    ++ [GCmd.moveZ absPickZ 500, GCmd.moveZ absRackSafeZ JOG_SPEED_Z]

/-! ## Transfer batching -/

/-- The termination epsilon `0.0001` of the planner's volume loops. -/
def volEps : ℚ := 1 / 10000

/-- The per-batch aspirate volumes produced by the batching loop of
`transfer_liquid_sequence` (`remaining_vol = total_vol;
while remaining_vol > 0.0001: batch_vol = min(remaining_vol, max_batch); …;
remaining_vol -= batch_vol`).  The loop has no intrinsic bound, so it is
unrolled on explicit fuel; every theorem supplies enough. -/
def batchVols (maxBatch : ℚ) : ℕ → ℚ → List ℚ
  | 0, _ => []
  | fuel + 1, remaining =>
    if volEps < remaining then
      let batch := min remaining maxBatch
      batch :: batchVols maxBatch fuel (remaining - batch)
    else []

/-- `MAX_STD_BATCH` / `MAX_VOLATILE_BATCH`: the liquid-class batch cap
selected by `max_batch = MAX_VOLATILE_BATCH if is_volatile else
MAX_STD_BATCH`. -/
def maxBatchFor (isVolatile : Bool) : ℚ :=
  if isVolatile then 500 else 800

/-! ## Batch wash distribution -/

/-- The inner `for i, p in enumerate(plan)` loop of
`_perform_batch_wash_distribution`, threading `in_tip` through the
recipients in order: a recipient with `remaining[i] <= 0.0001` is skipped;
when `in_tip <= 0.0001` the loop breaks; otherwise
`disp = min(remaining[i], in_tip)` is dispensed, `in_tip -= disp` and
`remaining[i] = max(0.0, remaining[i] - disp)`.  Returns the leftover
`in_tip` and the updated remaining needs. -/
def distributeCycle (inTip : ℚ) : List ℚ → ℚ × List ℚ
  | [] => (inTip, [])
  | r :: rest =>
    if r ≤ volEps then
      let q := distributeCycle inTip rest
      (q.1, r :: q.2)
    else if inTip ≤ volEps then
      (inTip, r :: rest)
    else
      let disp := min r inTip
      let inTip' := inTip - disp
      let r' := max 0 (r - disp)
      let q := distributeCycle inTip' rest
      (q.1, r' :: q.2)

/-- One outer cycle of `_perform_batch_wash_distribution`: what it loaded
and what it actually dispensed into the group. -/
structure WashCycleRec where
  load : ℚ
  dispensed : ℚ
deriving DecidableEq, Repr

/-- The load-and-distribute loop of `_perform_batch_wash_distribution`
(`while True: total_remaining = sum(remaining); if total_remaining <= 0.0001:
break; load_ul = min(max_liquid_ul, total_remaining); in_tip = load_ul; …`),
operating on the `remaining` needs of the group's plan.  The `while True`
loop has no intrinsic bound, so it is unrolled on explicit fuel; every
theorem supplies enough.  Returns the per-cycle records and the final
remaining needs. -/
def _perform_batch_wash_distribution (maxLiquidUl : ℚ) :
    ℕ → List ℚ → List WashCycleRec × List ℚ
  | 0, remaining => ([], remaining)
  | fuel + 1, remaining =>
    if volEps < remaining.sum then
      let loadUl := min maxLiquidUl remaining.sum
      let q := distributeCycle loadUl remaining
      let rec' := { load := loadUl, dispensed := loadUl - q.1 : WashCycleRec }
      let rest := _perform_batch_wash_distribution maxLiquidUl fuel q.2
      (rec' :: rest.1, rest.2)
    else ([], remaining)

/-! ## The transfer run sequence (`run_seq` inside
`transfer_liquid_sequence`)

The skeleton below mirrors the control flow of `run_seq`: the initial safety
eject, then per task a tip check (hard stop on `None`), a pick, the batching
loop, and a tip eject; the wash phase and the final park run only when every
task finished.  The command lists the legs transmit are supplied as
parameters (`RunSeqFns`) so the ordering theorems hold for every
instantiation; `LiquidHandler` instantiates them with the generators above
where a claim needs concrete commands. -/

/-- One row of the transfer table turned into a task dict. -/
structure TransferTask where
  line : ℕ
  source : String
  dest : String
  vol : ℚ
  volatile : Bool
  washVol : ℚ
  washTimes : ℕ
  washSrc : String

/-- An observable event of `run_seq`: one `_send_lines_with_ok(cmds)` call,
or the `messagebox.showerror("No Tips", …)` hard stop. -/
inductive RunEvent (α : Type) where
  | sentBatch (cmds : List α) : RunEvent α
  | noTipsError (lineNum : ℕ) : RunEvent α
deriving DecidableEq, Repr

/-- The command generators `run_seq` calls, abstracted over the command
representation `α`.  `singleTransfer src dest vol volatile startModule`
returns the command batches `_perform_single_transfer` itself sends plus the
module it returns; `phase2 inv module` is the whole wash phase plus the
final park (only reached when phase 1 finishes without running out of
tips). -/
structure RunSeqFns (α : Type) where
  ejectCmds : List α
  pickCmds : String → Option String → List α
  singleTransfer : String → String → ℚ → Bool → Option String →
    List (List α) × Option String
  phase2 : (String → Bool) → Option String → List (RunEvent α)

/-- The per-task batching loop of `run_seq`, driven by the batch volumes
`batchVols` computes: each batch is handed to `_perform_single_transfer`,
which sends its own command batches and returns the new simulated module. -/
def runBatches (fns : RunSeqFns α) (src dest : String) (volatile : Bool) :
    List ℚ → Option String → List (RunEvent α) × Option String
  | [], m => ([], m)
  | b :: bs, m =>
    let s := fns.singleTransfer src dest b volatile m
    let rest := runBatches fns src dest volatile bs s.2
    (s.1.map RunEvent.sentBatch ++ rest.1, rest.2)

/-- The `for task in tasks` loop of `run_seq` (phase 1).  For each task:
`_find_next_available_tip()`; on `None`, show the "No Tips" error and
return — nothing further is sent and phase 2 never runs.  Otherwise send
the pick commands, mark the tip consumed, run the batching loop from module
`"TIPS"`, and send the eject commands. -/
def runSeqPhase1 (fns : RunSeqFns α) (batchFuel : ℕ) (inv : String → Bool)
    (mod : Option String) : List TransferTask → List (RunEvent α)
  | [] => fns.phase2 inv mod
  | task :: rest =>
    match _find_next_available_tip inv with
    | none => [RunEvent.noTipsError task.line]
    | some tipKey =>
      let inv' := fun k => if k = tipKey then false else inv k
      let maxBatch := maxBatchFor task.volatile
      let vols := batchVols maxBatch batchFuel task.vol
      let b := runBatches fns task.source task.dest task.volatile vols (some "TIPS")
      RunEvent.sentBatch (fns.pickCmds tipKey mod)
        :: (b.1 ++ RunEvent.sentBatch fns.ejectCmds
              :: runSeqPhase1 fns batchFuel inv' (some "EJECT") rest)

/-- `run_seq`: eject any loaded tip first (one command batch sent
unconditionally, before any tip-availability check), then phase 1. -/
def runSeqEvents (fns : RunSeqFns α) (batchFuel : ℕ) (inv : String → Bool)
    (tasks : List TransferTask) : List (RunEvent α) :=
  RunEvent.sentBatch fns.ejectCmds :: runSeqPhase1 fns batchFuel inv (some "EJECT") tasks

/-! ## Concrete default configuration values (the compiled-in defaults of
`src/main.py`, used to instantiate the run-sequence model concretely) -/

/-- `CALIBRATION_PIN_CONFIG_DEFAULT` (`109.7, 112.0, 133.7`). -/
def defaultPin : CalibrationPin := ⟨1097 / 10, 112, 1337 / 10⟩

/-- `EJECT_STATION_CONFIG_DEFAULT`
(`78.5, 71.1, 32.2, 2.0, 106.7, 32.2`). -/
def defaultEjectCfg : EjectStationConfig :=
  ⟨785 / 10, 711 / 10, 161 / 5, 2, 1067 / 10, 161 / 5⟩

/-- `TIP_RACK_CONFIG_DEFAULT`
(`69.4, 31.0, 99.8, -18.9, 27.2, -62.8`). -/
def defaultTipCfg : TipRackConfig :=
  ⟨347 / 5, 31, 499 / 5, -189 / 10, 136 / 5, -314 / 5⟩

/-- `CENTER_CONFIG_DEFAULT["SAFE_CENTER_X_OFFSET"]` (`0.8`). -/
def SAFE_CENTER_X_OFFSET : ℚ := 4 / 5

/-- `CENTER_CONFIG_DEFAULT["SAFE_CENTER_Y_OFFSET"]` (`-4.3`). -/
def SAFE_CENTER_Y_OFFSET : ℚ := -43 / 10

/-- `CENTER_CONFIG_DEFAULT["GLOBAL_SAFE_Z_OFFSET"]` (`37.2`). -/
def GLOBAL_SAFE_Z_OFFSET : ℚ := 186 / 5

/-- `_4ML_RACK_CONFIG_DEFAULT["Z_SAFE"]` (`13.8`): the shared shallow safe
plane of the low-clearance group. -/
def Z4ML_SAFE_OFFSET : ℚ := 69 / 5

/-- A concrete `RunSeqFns` over `GCmd` built from the default configuration.
The eject and pick generators are the real ones
(`_get_eject_tip_commands` / `_get_pick_tip_commands`); the single-transfer
generator and the wash phase are never invoked on the no-tips path (the tip
check fails before either runs), so any instantiation serves there — the
trivial one is used. -/
def fns₀ : RunSeqFns GCmd where
  ejectCmds := _get_eject_tip_commands defaultPin defaultEjectCfg
    SAFE_CENTER_X_OFFSET SAFE_CENTER_Y_OFFSET GLOBAL_SAFE_Z_OFFSET
  pickCmds := fun k m => _get_pick_tip_commands defaultPin defaultTipCfg
    Z4ML_SAFE_OFFSET GLOBAL_SAFE_Z_OFFSET k m
  singleTransfer := fun _ _ _ _ m => ([], m)
  phase2 := fun _ _ => []

/-! ## Helper lemmas -/

/-- `List.find?` returns the first element satisfying the predicate: the list
splits at the returned element with everything before it failing. -/
theorem find?_first_split {α : Type} (p : α → Bool) :
    ∀ (l : List α) (a : α), l.find? p = some a →
      ∃ l₁ l₂, l = l₁ ++ a :: l₂ ∧ ∀ x ∈ l₁, p x = false := by
  intro l
  induction l with
  | nil => intro a h; simp [List.find?] at h
  | cons b t ih =>
    intro a h
    by_cases hb : p b
    · rw [List.find?_cons_of_pos _ hb] at h
      obtain rfl : b = a := by injection h
      exact ⟨[], t, rfl, by simp⟩
    · rw [List.find?_cons_of_neg _ hb] at h
      obtain ⟨l₁, l₂, hsplit, hall⟩ := ih a h
      refine ⟨b :: l₁, l₂, by rw [hsplit]; rfl, ?_⟩
      intro x hx
      rcases List.mem_cons.mp hx with rfl | hx'
      · exact Bool.of_not_eq_true hb
      · exact hall x hx'

/-! ## Claim theorems -/

/-- C9: when a rack has a single column (`numCols = 1`) the interpolated X is
the start corner's X, and symmetrically for a single row; the guard keeps the
`count - 1` divisor out of the degenerate branch entirely, so the result does
not even depend on the end corner there, and interpolation is total for all
counts.  The 4 mL rack exercises the single-row case: any successfully
resolved, well-formed key gets exactly the start corner's Y. -/
theorem interpolation_single_row_col_c9 :
    ∀ (c r : ℤ) (nc nr : ℕ) (sx sy ex ey : ℚ),
      (nc = 1 → (_get_interpolated_coords c r nc nr sx sy ex ey).1 = sx)
      ∧ (nr = 1 → (_get_interpolated_coords c r nc nr sx sy ex ey).2 = sy)
      ∧ (nc = 1 → ∀ ex' : ℚ,
          (_get_interpolated_coords c r nc nr sx sy ex ey).1
            = (_get_interpolated_coords c r nc nr sx sy ex' ey).1)
      ∧ _get_interpolated_coords c r 1 1 sx sy ex ey = (sx, sy)
      ∧ (∀ (pin : CalibrationPin) (cfg : Rack4mlConfig) (key : String) (p : ℚ × ℚ),
          pyStartsWith key ['A'] = true →
          get_4ml_coordinates pin cfg key = some p →
          p.2 = pin.pinY + cfg.a1y) := by
  intro c r nc nr sx sy ex ey
  refine ⟨?_, ?_, ?_, ?_, ?_⟩
  · rintro rfl; simp [_get_interpolated_coords]
  · rintro rfl; simp [_get_interpolated_coords]
  · rintro rfl ex'; simp [_get_interpolated_coords]
  · simp [_get_interpolated_coords]
  · intro pin cfg key p hpre hres
    unfold get_4ml_coordinates at hres
    rw [hpre] at hres
    cases hn : pyInt? (key.toList.drop 1) with
    | none => rw [hn] at hres; simp at hres
    | some n =>
      rw [hn] at hres
      rw [if_neg (by simp)] at hres
      simp only [Option.bind_eq_bind, Option.some_bind, Option.pure_def,
        Option.some.injEq] at hres
      rw [← hres]
      simp [resolve_coords, _get_interpolated_coords]

/-- C9 witness at concrete inputs. -/
theorem interpolation_single_row_col_c9_witness :
    (_get_interpolated_coords 3 2 1 5 (10 : ℚ) 20 99 77).1 = 10
    ∧ ((3 : ℚ), (7 : ℚ)).2 = 2 + 5 := by
  have h4 : get_4ml_coordinates ⟨1, 2, 3⟩ ⟨0, 5, 7, 99⟩ "A3" = some (3, 7) := by
    simp +decide [get_4ml_coordinates, pyStartsWith, pyInt?, digitsToNat?, resolve_coords,
      _get_interpolated_coords]
    norm_num
  exact ⟨(interpolation_single_row_col_c9 3 2 1 5 10 20 99 77).1 rfl,
    (interpolation_single_row_col_c9 3 2 1 5 10 20 99 77).2.2.2.2 ⟨1, 2, 3⟩ ⟨0, 5, 7, 99⟩
      "A3" (3, 7) (by rfl) h4⟩

/-- C3: for a rack given by two corner wells, interpolation maps the first
corner key (`colIdx = 0`, `rowIdx = 0`) exactly to the start corner and the
last corner key (`numCols - 1`, `numRows - 1`) exactly to the end corner, and
every key to independent linear interpolation on each axis; on the 96-well
plate (12 × 8) the keys `A1`/`H12` resolve exactly to the configured corners,
and with corners `A1 = (0,0)`, `H12 = (110,70)` the key `D6` resolves to
relative `(50, 30)`. -/
theorem interpolation_corners_linear_c3 :
    (∀ (nc nr : ℕ) (sx sy ex ey : ℚ), 2 ≤ nc → 2 ≤ nr →
        _get_interpolated_coords 0 0 nc nr sx sy ex ey = (sx, sy)
        ∧ _get_interpolated_coords ((nc : ℤ) - 1) ((nr : ℤ) - 1) nc nr sx sy ex ey = (ex, ey)
        ∧ ∀ cI rI : ℤ, _get_interpolated_coords cI rI nc nr sx sy ex ey
            = (sx + cI * (ex - sx) / ((nc : ℚ) - 1), sy + rI * (ey - sy) / ((nr : ℚ) - 1)))
    ∧ (∀ (pin : CalibrationPin) (cfg : PlateConfig),
        get_well_coordinates pin cfg "A1" = some (resolve_coords pin cfg.a1x cfg.a1y)
        ∧ get_well_coordinates pin cfg "H12" = some (resolve_coords pin cfg.h12x cfg.h12y))
    ∧ (∀ pin : CalibrationPin,
        get_well_coordinates pin ⟨0, 0, 110, 70⟩ "D6"
          = some (pin.pinX + 50, pin.pinY + 30)) := by
  refine ⟨?_, ?_, ?_⟩
  · intro nc nr sx sy ex ey hc hr
    have hnc1 : 1 < nc := lt_of_lt_of_le one_lt_two hc
    have hnr1 : 1 < nr := lt_of_lt_of_le one_lt_two hr
    have hncQ : ((nc : ℚ) - 1) ≠ 0 := by
      have : (2 : ℚ) ≤ (nc : ℚ) := by exact_mod_cast hc
      linarith
    have hnrQ : ((nr : ℚ) - 1) ≠ 0 := by
      have : (2 : ℚ) ≤ (nr : ℚ) := by exact_mod_cast hr
      linarith
    refine ⟨?_, ?_, ?_⟩
    · simp [_get_interpolated_coords, if_pos hnc1, if_pos hnr1]
    · simp only [_get_interpolated_coords, if_pos hnc1, if_pos hnr1, Prod.mk.injEq]
      constructor
      · push_cast
        field_simp
      · push_cast
        field_simp
    · intro cI rI
      simp only [_get_interpolated_coords, if_pos hnc1, if_pos hnr1, Prod.mk.injEq]
      exact ⟨by ring, by ring⟩
  · intro pin cfg
    constructor
    · simp +decide [get_well_coordinates, _get_interpolated_coords, resolve_coords,
        pyInt?, digitsToNat?, plate_rows]
    · simp +decide [get_well_coordinates, _get_interpolated_coords, resolve_coords,
        pyInt?, digitsToNat?, plate_rows]
      constructor
      · field_simp
      · field_simp
        ring
  · intro pin
    simp +decide [get_well_coordinates, _get_interpolated_coords, resolve_coords,
      pyInt?, digitsToNat?, plate_rows]
    norm_num

/-- C3 witness at concrete inputs (corners of a 12 × 8 rack). -/
theorem interpolation_corners_linear_c3_witness :
    _get_interpolated_coords 0 0 12 8 (3 : ℚ) 4 113 74 = (3, 4)
    ∧ _get_interpolated_coords 11 7 12 8 (3 : ℚ) 4 113 74 = (113, 74)
    ∧ get_well_coordinates ⟨9, 9, 9⟩ ⟨0, 0, 110, 70⟩ "D6" = some (9 + 50, 9 + 30) := by
  have h := (interpolation_corners_linear_c3.1 12 8 3 4 113 74 (by norm_num) (by norm_num))
  exact ⟨h.1, by simpa using h.2.1, interpolation_corners_linear_c3.2.2 ⟨9, 9, 9⟩⟩

/-- C5: `_find_next_available_tip` returns the first fresh key in row-major
order (rows `A..F` outer, columns `1..4` inner — the order of `tipKeys`):
every key before the returned one is consumed, the returned key is fresh
(so a consumed tip is never returned), and the result is `None` exactly when
no tip is fresh. -/
theorem find_next_tip_row_major_c5 :
    ∀ inv : String → Bool,
      (∀ k, _find_next_available_tip inv = some k →
          inv k = true
          ∧ ∃ l₁ l₂, tipKeys = l₁ ++ k :: l₂ ∧ ∀ k' ∈ l₁, inv k' = false)
      ∧ (_find_next_available_tip inv = none ↔ ∀ k ∈ tipKeys, inv k = false) := by
  intro inv
  constructor
  · intro k h
    exact ⟨List.find?_some h, find?_first_split _ tipKeys k h⟩
  · unfold _find_next_available_tip
    rw [List.find?_eq_none]
    constructor
    · intro h k hk
      simpa using h k hk
    · intro h k hk
      simp [h k hk]

/-- C5 witness: with exactly `B3` and `C1` fresh, the scan returns `B3`, it
is fresh, and everything strictly before it in row-major order is
consumed. -/
theorem find_next_tip_row_major_c5_witness :
    (fun k => k == "B3" || k == "C1") "B3" = true
    ∧ ∃ l₁ l₂, tipKeys = l₁ ++ "B3" :: l₂
        ∧ ∀ k' ∈ l₁, (fun k => k == "B3" || k == "C1") k' = false :=
  (find_next_tip_row_major_c5 (fun k => k == "B3" || k == "C1")).1 "B3" (by rfl)

/-- C7: `_get_smart_travel_gcode` moves directly at the target module's safe
Z (no retraction to a travel height) exactly when the simulated current
module equals the target module; otherwise it first retracts to a travel
height, which is the shared shallow plane (the 4 mL rack's `Z_SAFE`) when
both current and target module kinds are in `SMALL_VIAL_MODULES`, and the
global safe Z otherwise. -/
theorem smart_travel_c7 :
    ∀ (pin : CalibrationPin) (z4 g : ℚ) (t : String) (tx ty mz : ℚ)
      (cur : Option String),
      (cur = some t →
          _get_smart_travel_gcode pin z4 g t tx ty mz cur
            = [GCmd.g90, GCmd.moveZ mz JOG_SPEED_Z, GCmd.moveXY tx ty JOG_SPEED_XY])
      ∧ (∀ m, cur = some m → m ≠ t → m ∈ SMALL_VIAL_MODULES → t ∈ SMALL_VIAL_MODULES →
          _get_smart_travel_gcode pin z4 g t tx ty mz cur
            = [GCmd.g90, GCmd.moveZ (resolve_z pin z4) JOG_SPEED_Z,
               GCmd.moveXY tx ty JOG_SPEED_XY, GCmd.moveZ mz JOG_SPEED_Z])
      ∧ (cur ≠ some t →
          ((∀ m, cur = some m → m ∉ SMALL_VIAL_MODULES) ∨ t ∉ SMALL_VIAL_MODULES) →
          _get_smart_travel_gcode pin z4 g t tx ty mz cur
            = [GCmd.g90, GCmd.moveZ (resolve_z pin g) JOG_SPEED_Z,
               GCmd.moveXY tx ty JOG_SPEED_XY, GCmd.moveZ mz JOG_SPEED_Z]) := by
  intro pin z4 g t tx ty mz cur
  refine ⟨?_, ?_, ?_⟩
  · rintro rfl
    simp [_get_smart_travel_gcode]
  · rintro m rfl hmt hm ht
    have hne : (some m : Option String) ≠ some t := by simpa using hmt
    have h1 : SMALL_VIAL_MODULES.contains m = true := by
      simpa [List.contains, List.elem_eq_mem] using hm
    have h2 : SMALL_VIAL_MODULES.contains t = true := by
      simpa [List.contains, List.elem_eq_mem] using ht
    unfold _get_smart_travel_gcode
    rw [if_neg hne]
    simp only [h1, h2, Bool.and_self]
    simp
  · intro hne hcase
    cases cur with
    | none =>
      unfold _get_smart_travel_gcode
      rw [if_neg hne]
      simp
    | some m =>
      rcases hcase with hmem | ht
      · have h1 : SMALL_VIAL_MODULES.contains m = false := by
          have := hmem m rfl
          simpa [List.contains, List.elem_eq_mem] using this
        unfold _get_smart_travel_gcode
        rw [if_neg hne]
        simp only [h1, Bool.false_and]
        simp
      · have h2 : SMALL_VIAL_MODULES.contains t = false := by
          simpa [List.contains, List.elem_eq_mem] using ht
        unfold _get_smart_travel_gcode
        rw [if_neg hne]
        simp only [h2, Bool.and_false]
        simp

/-- C7 witness: same-module travel (`EPPI → EPPI`), low-clearance travel
(`EPPI → 4ML`), and full-retract travel (`PLATE → 4ML`), at concrete
coordinates. -/
theorem smart_travel_c7_witness :
    _get_smart_travel_gcode ⟨1, 2, 3⟩ 10 40 "EPPI" 5 6 7 (some "EPPI")
      = [GCmd.g90, GCmd.moveZ 7 JOG_SPEED_Z, GCmd.moveXY 5 6 JOG_SPEED_XY]
    ∧ _get_smart_travel_gcode ⟨1, 2, 3⟩ 10 40 "4ML" 5 6 7 (some "EPPI")
      = [GCmd.g90, GCmd.moveZ (resolve_z ⟨1, 2, 3⟩ 10) JOG_SPEED_Z,
         GCmd.moveXY 5 6 JOG_SPEED_XY, GCmd.moveZ 7 JOG_SPEED_Z]
    ∧ _get_smart_travel_gcode ⟨1, 2, 3⟩ 10 40 "4ML" 5 6 7 (some "PLATE")
      = [GCmd.g90, GCmd.moveZ (resolve_z ⟨1, 2, 3⟩ 40) JOG_SPEED_Z,
         GCmd.moveXY 5 6 JOG_SPEED_XY, GCmd.moveZ 7 JOG_SPEED_Z] :=
  ⟨(smart_travel_c7 ⟨1, 2, 3⟩ 10 40 "EPPI" 5 6 7 (some "EPPI")).1 rfl,
   (smart_travel_c7 ⟨1, 2, 3⟩ 10 40 "4ML" 5 6 7 (some "EPPI")).2.1 "EPPI" rfl
     (by decide) (by decide) (by decide),
   (smart_travel_c7 ⟨1, 2, 3⟩ 10 40 "4ML" 5 6 7 (some "PLATE")).2.2 (by decide)
     (Or.inl (fun m hm => by
       obtain rfl : "PLATE" = m := by injection hm
       decide))⟩

/-- C10: a received line whose stripped text starts with the
case-insensitive token `ok` and contains all three axis markers `X:`, `Y:`,
`Z:` is classified as position telemetry (parsed and committed) *and* sets
the acknowledgement signal — the two classifications are not mutually
exclusive; a line containing the busy marker is discarded before either
classification. -/
theorem reader_ok_position_both_c10 :
    ∀ rawLine : String,
      (containsSeq "echo:busy".toList (pyStrip rawLine.toList) = false →
       "ok".toList.isPrefixOf ((pyStrip rawLine.toList).map Char.toLower) = true →
       containsSeq "X:".toList (pyStrip rawLine.toList) = true →
       containsSeq "Y:".toList (pyStrip rawLine.toList) = true →
       containsSeq "Z:".toList (pyStrip rawLine.toList) = true →
       (readerClassify rawLine).parsedPosition = true
         ∧ (readerClassify rawLine).ackSet = true)
      ∧ (containsSeq "echo:busy".toList (pyStrip rawLine.toList) = true →
         readerClassify rawLine = ⟨false, false, false⟩) := by
  intro raw
  constructor
  · intro hbusy hok hx hy hz
    have hne : ¬ (pyStrip raw.toList = []) := by
      intro h
      rw [h] at hok
      simp [List.isPrefixOf] at hok
    unfold readerClassify
    rw [if_neg hne, if_neg (by rw [hbusy]; exact Bool.false_ne_true)]
    simp only [hx, hy, hz, hok]
    simp
  · intro hbusy
    unfold readerClassify
    by_cases hne : pyStrip raw.toList = []
    · rw [if_pos hne]
    · rw [if_neg hne, if_pos hbusy]

/-- C10 witness: the concrete line `"ok X:1.0 Y:2.0 Z:3.0"` is parsed as
telemetry and sets the ack signal; the concrete busy line
`"echo:busy processing"` is discarded. -/
theorem reader_ok_position_both_c10_witness :
    ((readerClassify "ok X:1.0 Y:2.0 Z:3.0").parsedPosition = true
      ∧ (readerClassify "ok X:1.0 Y:2.0 Z:3.0").ackSet = true)
    ∧ readerClassify "echo:busy processing" = ⟨false, false, false⟩ :=
  ⟨(reader_ok_position_both_c10 "ok X:1.0 Y:2.0 Z:3.0").1 (by rfl) (by rfl) (by rfl)
      (by rfl) (by rfl),
   (reader_ok_position_both_c10 "echo:busy processing").2 (by rfl)⟩

/-- Helper for C6: the loop of `_send_lines_with_ok` starting at global
index `s`: when the first `i` commands are acknowledged in time with no
abort observed, and the `i`-th command's acknowledgement misses its class
timeout, exactly the first `i + 1` lines are transmitted and the outcome is
the timeout error on that command. -/
theorem sendLinesFrom_timeout (abortAt : ℕ → Bool) (ackTime : ℕ → Option ℚ) :
    ∀ (lines : List String) (s i : ℕ) (hi : i < lines.length),
      (∀ j, j < i → abortAt (s + j) = false) →
      (∀ j, (hj : j < i) → ackWithin ackTime (s + j)
          (lines.get ⟨j, lt_trans hj hi⟩) = true) →
      abortAt (s + i) = false →
      ackWithin ackTime (s + i) (lines.get ⟨i, hi⟩) = false →
      sendLinesFrom abortAt ackTime s lines
        = (lines.take (i + 1), SendOutcome.timedOut (s + i) (lines.get ⟨i, hi⟩)) := by
  intro lines
  induction lines with
  | nil => intro s i hi; simp at hi
  | cons l rest ih =>
    intro s i hi habort hack habort_i hack_i
    cases i with
    | zero =>
      have ha : abortAt s = false := by simpa using habort_i
      have hk : ackWithin ackTime s l = false := by simpa using hack_i
      unfold sendLinesFrom
      rw [if_neg (by simp [ha]), if_neg (by simp [hk])]
      simp
    | succ i' =>
      have h0 : abortAt s = false := by simpa using habort 0 (Nat.succ_pos i')
      have hok0 : ackWithin ackTime s l = true := by
        simpa using hack 0 (Nat.succ_pos i')
      unfold sendLinesFrom
      rw [if_neg (by simp [h0]), if_pos hok0]
      have hi' : i' < rest.length := by simpa using hi
      have step := ih (s + 1) i' hi'
        (fun j hj => by
          have := habort (j + 1) (Nat.succ_lt_succ hj)
          simpa [Nat.add_assoc, Nat.add_comm 1 j] using this)
        (fun j hj => by
          have := hack (j + 1) (Nat.succ_lt_succ hj)
          simpa [Nat.add_assoc, Nat.add_comm 1 j] using this)
        (by simpa [Nat.add_assoc, Nat.add_comm 1 i'] using habort_i)
        (by simpa [Nat.add_assoc, Nat.add_comm 1 i'] using hack_i)
      rw [step]
      simp [Nat.add_assoc, Nat.add_comm 1 i']

/-- C6: if the `i`-th primitive command of an executing list receives no
acknowledgement within its class timeout (`currentTimeout`: ≈200 s for
commands containing `G28`/`G29` — homing/leveling — and ≈60 s for all
others), while every earlier command was acknowledged in time and no abort
was observed, then the engine transmits exactly the commands up to and
including the `i`-th, reports the timeout outcome for it, and sends none of
the remaining commands. -/
theorem send_lines_timeout_halts_c6 :
    ∀ (lines : List String) (abortAt : ℕ → Bool) (ackTime : ℕ → Option ℚ)
      (i : ℕ) (hi : i < lines.length),
      (∀ j, j < i → abortAt j = false) →
      (∀ j, (hj : j < i) → ackWithin ackTime j (lines.get ⟨j, lt_trans hj hi⟩) = true) →
      abortAt i = false →
      ackWithin ackTime i (lines.get ⟨i, hi⟩) = false →
      send_lines_with_ok abortAt ackTime lines
        = (lines.take (i + 1), SendOutcome.timedOut i (lines.get ⟨i, hi⟩)) := by
  intro lines abortAt ackTime i hi habort hack habort_i hack_i
  have h := sendLinesFrom_timeout abortAt ackTime lines 0 i hi
    (fun j hj => by simpa using habort j hj)
    (fun j hj => by simpa using hack j hj)
    (by simpa using habort_i)
    (by simpa using hack_i)
  simpa [send_lines_with_ok] using h

/-- C6 witness: a three-command list where the second command's `ok` arrives
only after the short 60 s class timeout; exactly the first two lines are
transmitted and the third is never sent. -/
theorem send_lines_timeout_halts_c6_witness :
    send_lines_with_ok (fun _ => false)
        (fun j => if j = 0 then some 1 else some 61)
        ["G90", "G0 X1.00 Y2.00 F8000", "G0 Z5.00 F8000"]
      = (["G90", "G0 X1.00 Y2.00 F8000"],
         SendOutcome.timedOut 1 "G0 X1.00 Y2.00 F8000") := by
  have h := send_lines_timeout_halts_c6
    ["G90", "G0 X1.00 Y2.00 F8000", "G0 Z5.00 F8000"]
    (fun _ => false) (fun j => if j = 0 then some 1 else some 61) 1 (by norm_num)
    (fun j hj => rfl)
    (fun j hj => by interval_cases j; rfl)
    rfl
    (by rfl)
  simpa using h

/-- C8 counterexample: the claim says every rack type resolves malformed
keys to the sentinel `(0,0)` instead of raising, but the 96-well plate,
Falcon and 4 mL resolvers leave `int(key[1:])` uncaught: the key `"AX"`
(non-numeric column suffix) raises `ValueError` (modelled `none`) on all
three instead of returning the sentinel. -/
theorem malformed_keys_c8_counterexample :
    get_well_coordinates ⟨0, 0, 0⟩ ⟨0, 0, 110, 70⟩ "AX" = none
    ∧ get_4ml_coordinates ⟨0, 0, 0⟩ ⟨0, 0, 7, 0⟩ "AX" = none
    ∧ get_falcon_coordinates ⟨0, 0, 0⟩ ⟨0, 0, 0, 0, 0, 0⟩ "AX" = none
    ∧ (none : Option (ℚ × ℚ)) ≠ some ((0 : ℚ), (0 : ℚ)) :=
  ⟨rfl, rfl, rfl, by simp⟩

/-- C8 (amended): only the 1×8-style racks (Filter Eppi, Eppi, HPLC vial,
HPLC insert, Screwcap) catch the parse error, returning the sentinel `(0,0)`
for both malformed-key kinds; the Falcon and 4 mL resolvers return the
sentinel only for a row letter outside the rack's row set (with a parseable
suffix, for Falcon) and raise `ValueError` on a non-numeric column suffix;
the 96-well plate resolver raises on both malformed kinds. -/
theorem malformed_keys_c8 :
    (∀ (pin : CalibrationPin) (cfg : Rack1x8Config) (rc : Char) (key : String),
        (pyStartsWith key [rc] = false →
          get_1x8_rack_coordinates pin cfg rc key = (0, 0))
        ∧ (pyInt? (key.toList.drop 1) = none →
          get_1x8_rack_coordinates pin cfg rc key = (0, 0)))
    ∧ (∀ (pin : CalibrationPin) (cfg : FalconConfig) (key : String)
        (c : Char) (cs : List Char), key.toList = c :: cs → key ≠ "50mL" →
        (pyInt? cs = none → get_falcon_coordinates pin cfg key = none)
        ∧ (c ∉ (['A', 'B'] : List Char) → ∀ n, pyInt? cs = some n →
            get_falcon_coordinates pin cfg key = some (0, 0)))
    ∧ (∀ (pin : CalibrationPin) (cfg : Rack4mlConfig) (key : String),
        pyStartsWith key ['A'] = true → pyInt? (key.toList.drop 1) = none →
        get_4ml_coordinates pin cfg key = none)
    ∧ (∀ (pin : CalibrationPin) (cfg : PlateConfig) (key : String)
        (c : Char) (cs : List Char), key.toList = c :: cs →
        (pyInt? cs = none → get_well_coordinates pin cfg key = none)
        ∧ (c ∉ plate_rows → get_well_coordinates pin cfg key = none)) := by
  refine ⟨?_, ?_, ?_, ?_⟩
  · intro pin cfg rc key
    constructor
    · intro h
      unfold get_1x8_rack_coordinates
      rw [if_pos (by simp [h])]
    · intro h
      unfold get_1x8_rack_coordinates
      by_cases hp : pyStartsWith key [rc] = true
      · rw [if_neg (by simp [hp])]
        rw [h]
      · rw [if_pos (by simp [Bool.eq_false_iff.mpr hp])]
  · intro pin cfg key c cs hlist hkey
    have hdata : key.data = c :: cs := hlist
    constructor
    · intro h
      unfold get_falcon_coordinates
      rw [if_neg hkey]
      simp [hdata, h]
    · intro hc n h
      unfold get_falcon_coordinates
      rw [if_neg hkey]
      simp only [hlist, List.head?_cons, List.tail_cons, List.drop_succ_cons,
        List.drop_zero, Option.bind_eq_bind, Option.some_bind, h]
      rw [if_neg hc]
      rfl
  · intro pin cfg key hpre h
    unfold get_4ml_coordinates
    rw [if_neg (by simp [hpre])]
    rw [h]
    rfl
  · intro pin cfg key c cs hlist
    have hdata : key.data = c :: cs := hlist
    constructor
    · intro h
      unfold get_well_coordinates
      simp [hdata, h]
    · intro hc
      have hidx : plate_rows.findIdx? (· = c) = none := by
        simp
        intro x hx hxc
        exact hc (hxc ▸ hx)
      unfold get_well_coordinates
      cases hn : pyInt? (key.toList.drop 1) with
      | none =>
        have hn' : pyInt? cs = none := by simpa [hdata] using hn
        simp [hdata, hn']
      | some n =>
        have hn' : pyInt? cs = some n := by simpa [hdata] using hn
        simp [hdata, hn', hidx]

/-- C8 witness: concrete malformed keys on each resolver class. -/
theorem malformed_keys_c8_witness :
    get_1x8_rack_coordinates ⟨1, 2, 3⟩ ⟨4, 5, 6, 7⟩ 'C' "B2" = (0, 0)
    ∧ get_1x8_rack_coordinates ⟨1, 2, 3⟩ ⟨4, 5, 6, 7⟩ 'C' "CX" = (0, 0)
    ∧ get_falcon_coordinates ⟨1, 2, 3⟩ ⟨4, 5, 6, 7, 8, 9⟩ "AX" = none
    ∧ get_falcon_coordinates ⟨1, 2, 3⟩ ⟨4, 5, 6, 7, 8, 9⟩ "C2" = some (0, 0)
    ∧ get_4ml_coordinates ⟨1, 2, 3⟩ ⟨4, 5, 6, 7⟩ "AX" = none
    ∧ get_well_coordinates ⟨1, 2, 3⟩ ⟨4, 5, 6, 7⟩ "AX" = none
    ∧ get_well_coordinates ⟨1, 2, 3⟩ ⟨4, 5, 6, 7⟩ "Z2" = none :=
  ⟨(malformed_keys_c8.1 ⟨1, 2, 3⟩ ⟨4, 5, 6, 7⟩ 'C' "B2").1 (by rfl),
   (malformed_keys_c8.1 ⟨1, 2, 3⟩ ⟨4, 5, 6, 7⟩ 'C' "CX").2 (by rfl),
   (malformed_keys_c8.2.1 ⟨1, 2, 3⟩ ⟨4, 5, 6, 7, 8, 9⟩ "AX" 'A' ['X'] rfl
      (by decide)).1 (by rfl),
   (malformed_keys_c8.2.1 ⟨1, 2, 3⟩ ⟨4, 5, 6, 7, 8, 9⟩ "C2" 'C' ['2'] rfl
      (by decide)).2 (by decide) 2 (by rfl),
   malformed_keys_c8.2.2.1 ⟨1, 2, 3⟩ ⟨4, 5, 6, 7⟩ "AX" (by rfl) (by rfl),
   (malformed_keys_c8.2.2.2 ⟨1, 2, 3⟩ ⟨4, 5, 6, 7⟩ "AX" 'A' ['X'] rfl).1 (by rfl),
   (malformed_keys_c8.2.2.2 ⟨1, 2, 3⟩ ⟨4, 5, 6, 7⟩ "Z2" 'Z' ['2'] rfl).2 (by decide)⟩

/-- Helper: the batching loop produces nothing once the remaining volume is
at or below the `0.0001` termination epsilon. -/
theorem batchVols_nonpos (M : ℚ) (fuel : ℕ) (V : ℚ) (h : V ≤ volEps) :
    batchVols M fuel V = [] := by
  cases fuel <;> simp [batchVols, not_lt.mpr h]

/-- Helper for C2: when every intermediate remainder `V - k·M` stays clear of
the half-open dust band `(0, 0.0001]`, the batching loop of
`transfer_liquid_sequence` splits `V` exactly: the batch volumes sum to `V`
and each batch is positive and at most `M`.  `fuel` bounds the number of
iterations (`V ≤ fuel · M` suffices). -/
theorem batchVols_exact (M : ℚ) (hM : 0 < M) :
    ∀ (fuel : ℕ) (V : ℚ), 0 ≤ V →
      (∀ k : ℕ, ¬(0 < V - k * M ∧ V - k * M ≤ volEps)) →
      V ≤ fuel * M →
      (batchVols M fuel V).sum = V
      ∧ ∀ b ∈ batchVols M fuel V, 0 < b ∧ b ≤ M := by
  intro fuel
  induction fuel with
  | zero =>
    intro V hV0 hgap hle
    have hz : V = 0 := le_antisymm (by simpa using hle) hV0
    subst hz
    simp [batchVols]
  | succ n ih =>
    intro V hV0 hgap hle
    by_cases hrun : volEps < V
    · unfold batchVols
      rw [if_pos hrun]
      by_cases hVM : V ≤ M
      · simp only [min_eq_left hVM, sub_self]
        rw [batchVols_nonpos M n 0 (by norm_num [volEps])]
        have hVpos : 0 < V := lt_trans (by norm_num [volEps]) hrun
        constructor
        · simp
        · intro b hb
          rcases List.mem_singleton.mp hb with rfl
          exact ⟨hVpos, hVM⟩
      · have hMV : M < V := lt_of_not_le hVM
        simp only [min_eq_right (le_of_lt hMV)]
        have hgap' : ∀ k : ℕ, ¬(0 < (V - M) - k * M ∧ (V - M) - k * M ≤ volEps) := by
          intro k
          have := hgap (k + 1)
          push_cast at this ⊢
          intro hin
          exact this ⟨by linarith [hin.1], by linarith [hin.2]⟩
        have hle' : V - M ≤ n * M := by
          push_cast at hle ⊢
          linarith
        obtain ⟨hsum, hmem⟩ := ih (V - M) (by linarith) hgap' hle'
        constructor
        · simp [hsum]
        · intro b hb
          rcases List.mem_cons.mp hb with rfl | hb'
          · exact ⟨hM, le_rfl⟩
          · exact hmem b hb'
    · have hVeps : V ≤ volEps := not_lt.mp hrun
      have hz : V = 0 := by
        rcases lt_or_eq_of_le hV0 with hpos | heq
        · exact absurd ⟨by simpa using hpos, by simpa using hVeps⟩ (hgap 0)
        · exact heq.symm
      subst hz
      rw [batchVols_nonpos M (n + 1) 0 (by norm_num [volEps])]
      simp

/-- C2 counterexample: the requested volume `1/20000 µL = 0.00005 µL` is
strictly positive, yet the batching loop's `remaining_vol > 0.0001`
termination guard never fires, so no batch is produced and the batch volumes
sum to `0`, not to the requested total — the claim's exact-sum property
fails for this positive volume. -/
theorem transfer_batching_c2_counterexample :
    (0 : ℚ) < 1 / 20000
    ∧ batchVols (maxBatchFor false) 5 (1 / 20000) = []
    ∧ (batchVols (maxBatchFor false) 5 (1 / 20000)).sum ≠ 1 / 20000 := by
  refine ⟨by norm_num, ?_, ?_⟩
  · norm_num [batchVols, volEps, maxBatchFor]
  · rw [batchVols_nonpos _ _ _ (by norm_num [volEps])]
    norm_num

/-- C2 (amended): for a requested volume `V > 0` and the liquid-class batch
cap (`MAX_STD_BATCH = 800` standard, `MAX_VOLATILE_BATCH = 500` volatile),
provided no intermediate remainder `V - k·cap` falls in the dust band
`(0, 0.0001]` left open by the loop's termination epsilon (true of every
practical volume, e.g. any whole multiple of 0.001 µL), the batching loop
produces batches that sum exactly to `V`, each positive and at most the
cap; in particular a 1500 µL standard transfer yields exactly the two
batches 800 µL and 700 µL. -/
theorem transfer_batching_c2 :
    (∀ (volatile : Bool) (V : ℚ) (fuel : ℕ),
        0 < V →
        (∀ k : ℕ, ¬(0 < V - k * maxBatchFor volatile
            ∧ V - k * maxBatchFor volatile ≤ volEps)) →
        V ≤ fuel * maxBatchFor volatile →
        (batchVols (maxBatchFor volatile) fuel V).sum = V
        ∧ ∀ b ∈ batchVols (maxBatchFor volatile) fuel V,
            0 < b ∧ b ≤ maxBatchFor volatile)
    ∧ batchVols (maxBatchFor false) 2 1500 = [800, 700]
    ∧ maxBatchFor false = 800 ∧ maxBatchFor true = 500 := by
  refine ⟨?_, ?_, rfl, rfl⟩
  · intro v V fuel hV hgap hle
    have hM : 0 < maxBatchFor v := by cases v <;> norm_num [maxBatchFor]
    exact batchVols_exact _ hM fuel V (le_of_lt hV) hgap hle
  · norm_num [batchVols, volEps, maxBatchFor, min_def]

/-- C2 witness: the 1500 µL standard transfer, through the amended theorem:
its batches sum to 1500 and each is positive and at most 800. -/
theorem transfer_batching_c2_witness :
    (batchVols (maxBatchFor false) 2 1500).sum = 1500
    ∧ ∀ b ∈ batchVols (maxBatchFor false) 2 1500,
        0 < b ∧ b ≤ maxBatchFor false := by
  refine transfer_batching_c2.1 false 1500 2 (by norm_num) ?_
    (by norm_num [maxBatchFor])
  intro k
  rintro ⟨h1, h2⟩
  rcases k with _ | _ | k
  · norm_num [maxBatchFor, volEps] at h2
  · norm_num [maxBatchFor, volEps] at h2
  · rw [show maxBatchFor false = 800 from rfl] at h1
    push_cast at h1
    have hk : (0 : ℚ) ≤ (k : ℚ) := Nat.cast_nonneg k
    linarith

/-! ## Whole-µL volumes (for the batch-wash analysis)

The wash loops' `0.0001` epsilons leave a dust band that defeats exactness
for adversarial rationals; volumes that are whole numbers of µL (any grid
coarser than the epsilon works the same way) stay clear of it. -/

/-- A rational that is the cast of a whole number of µL. -/
def IsNatQ (q : ℚ) : Prop := ∃ n : ℕ, q = (n : ℚ)

theorem IsNatQ.nonneg {q : ℚ} (h : IsNatQ q) : 0 ≤ q := by
  obtain ⟨n, rfl⟩ := h
  positivity

theorem IsNatQ.zero : IsNatQ 0 := ⟨0, by norm_num⟩

theorem IsNatQ.add {a b : ℚ} (ha : IsNatQ a) (hb : IsNatQ b) : IsNatQ (a + b) := by
  obtain ⟨m, rfl⟩ := ha
  obtain ⟨n, rfl⟩ := hb
  exact ⟨m + n, by push_cast; ring⟩

theorem IsNatQ.min {a b : ℚ} (ha : IsNatQ a) (hb : IsNatQ b) :
    IsNatQ (min a b) := by
  obtain ⟨m, rfl⟩ := ha
  obtain ⟨n, rfl⟩ := hb
  refine ⟨Min.min m n, ?_⟩
  simp [Nat.cast_min]

theorem IsNatQ.sub {a b : ℚ} (ha : IsNatQ a) (hb : IsNatQ b) (h : b ≤ a) :
    IsNatQ (a - b) := by
  obtain ⟨m, rfl⟩ := ha
  obtain ⟨n, rfl⟩ := hb
  exact ⟨m - n, by rw [Nat.cast_sub (Nat.cast_le.mp h)]⟩

/-- A whole-µL volume at or below the termination epsilon is exactly zero. -/
theorem IsNatQ.eq_zero_of_le_eps {q : ℚ} (h : IsNatQ q) (he : q ≤ volEps) :
    q = 0 := by
  obtain ⟨n, rfl⟩ := h
  rcases Nat.eq_zero_or_pos n with rfl | hpos
  · norm_num
  · exfalso
    have h1 : (1 : ℚ) ≤ (n : ℚ) := by exact_mod_cast hpos
    norm_num [volEps] at he
    linarith

/-- A whole-µL volume above the termination epsilon is at least 1. -/
theorem IsNatQ.one_le_of_eps_lt {q : ℚ} (h : IsNatQ q) (he : volEps < q) :
    1 ≤ q := by
  obtain ⟨n, rfl⟩ := h
  rcases Nat.eq_zero_or_pos n with rfl | hpos
  · norm_num [volEps] at he
  · exact_mod_cast hpos

theorem IsNatQ.list_sum {l : List ℚ} (h : ∀ r ∈ l, IsNatQ r) :
    IsNatQ l.sum := by
  induction l with
  | nil => exact ⟨0, by simp⟩
  | cons r rest ih =>
    rw [List.sum_cons]
    exact (h r (List.mem_cons_self r rest)).add
      (ih (fun x hx => h x (List.mem_cons_of_mem r hx)))

theorem list_sum_nonneg_of_natq {l : List ℚ} (h : ∀ r ∈ l, IsNatQ r) :
    0 ≤ l.sum :=
  (IsNatQ.list_sum h).nonneg

/-! ## Lemmas about one distribution cycle -/

/-- Volume accounting of a cycle: what leaves the tip goes into the
recipients — `remaining' .sum + inTip = remaining.sum + leftover`,
unconditionally. -/
theorem distributeCycle_sum (inTip : ℚ) (l : List ℚ) :
    (distributeCycle inTip l).2.sum + inTip
      = l.sum + (distributeCycle inTip l).1 := by
  induction l generalizing inTip with
  | nil => simp [distributeCycle]
  | cons r rest ih =>
    unfold distributeCycle
    by_cases h1 : r ≤ volEps
    · rw [if_pos h1]
      have := ih inTip
      simp only [List.sum_cons]
      linarith
    · rw [if_neg h1]
      by_cases h2 : inTip ≤ volEps
      · rw [if_pos h2]
      · rw [if_neg h2]
        have hdr : min r inTip ≤ r := min_le_left r inTip
        have hmax : max 0 (r - min r inTip) = r - min r inTip :=
          max_eq_right (by linarith)
        simp only [hmax, List.sum_cons]
        have := ih (inTip - min r inTip)
        linarith

/-- A cycle preserves whole-µL volumes (leftover and all remainders). -/
theorem distributeCycle_nat (l : List ℚ) :
    ∀ (inTip : ℚ), IsNatQ inTip → (∀ r ∈ l, IsNatQ r) →
      IsNatQ (distributeCycle inTip l).1
      ∧ ∀ r ∈ (distributeCycle inTip l).2, IsNatQ r := by
  induction l with
  | nil =>
    intro inTip hti _
    simpa [distributeCycle] using hti
  | cons r rest ih =>
    intro inTip hti hl
    have hr : IsNatQ r := hl r (List.mem_cons_self r rest)
    have hrest : ∀ x ∈ rest, IsNatQ x := fun x hx => hl x (List.mem_cons_of_mem r hx)
    unfold distributeCycle
    by_cases h1 : r ≤ volEps
    · rw [if_pos h1]
      obtain ⟨hq1, hq2⟩ := ih inTip hti hrest
      refine ⟨hq1, ?_⟩
      intro x hx
      rcases List.mem_cons.mp hx with rfl | hx'
      · exact hr
      · exact hq2 x hx'
    · rw [if_neg h1]
      by_cases h2 : inTip ≤ volEps
      · rw [if_pos h2]
        exact ⟨hti, hl⟩
      · rw [if_neg h2]
        have hdisp : IsNatQ (min r inTip) := hr.min hti
        have hti' : IsNatQ (inTip - min r inTip) :=
          hti.sub hdisp (min_le_right r inTip)
        have hr' : max 0 (r - min r inTip) = r - min r inTip :=
          max_eq_right (by linarith [min_le_left r inTip])
        obtain ⟨hq1, hq2⟩ := ih (inTip - min r inTip) hti' hrest
        refine ⟨hq1, ?_⟩
        intro x hx
        simp only [hr'] at hx
        rcases List.mem_cons.mp hx with rfl | hx'
        · exact hr.sub hdisp (min_le_left r inTip)
        · exact hq2 x hx'

/-- With whole-µL volumes and a load that does not exceed the group's total
remaining need, a cycle always empties the tip: the leftover is zero. -/
theorem distributeCycle_leftover_zero (l : List ℚ) :
    ∀ (inTip : ℚ), IsNatQ inTip → (∀ r ∈ l, IsNatQ r) → inTip ≤ l.sum →
      (distributeCycle inTip l).1 = 0 := by
  induction l with
  | nil =>
    intro inTip hti _ hle
    have : inTip = 0 := le_antisymm (by simpa using hle) hti.nonneg
    simpa [distributeCycle] using this
  | cons r rest ih =>
    intro inTip hti hl hle
    have hr : IsNatQ r := hl r (List.mem_cons_self r rest)
    have hrest : ∀ x ∈ rest, IsNatQ x := fun x hx => hl x (List.mem_cons_of_mem r hx)
    unfold distributeCycle
    by_cases h1 : r ≤ volEps
    · rw [if_pos h1]
      have hr0 : r = 0 := hr.eq_zero_of_le_eps h1
      refine ih inTip hti hrest ?_
      rw [List.sum_cons, hr0] at hle
      linarith
    · rw [if_neg h1]
      by_cases h2 : inTip ≤ volEps
      · rw [if_pos h2]
        exact hti.eq_zero_of_le_eps h2
      · rw [if_neg h2]
        have hdisp : IsNatQ (min r inTip) := hr.min hti
        have hti' : IsNatQ (inTip - min r inTip) :=
          hti.sub hdisp (min_le_right r inTip)
        refine ih (inTip - min r inTip) hti' hrest ?_
        rcases le_total inTip r with hir | hri
        · rw [min_eq_right hir, sub_self]
          exact list_sum_nonneg_of_natq hrest
        · rw [min_eq_left hri]
          rw [List.sum_cons] at hle
          linarith

/-! ## The batch-wash loop -/

/-- Helper for C4: with whole-µL needs and a whole-µL capacity of at least
1 µL, the load-and-distribute loop runs to completion within `Σ needs`
cycles: every remaining need ends at zero, each cycle dispenses exactly what
it loaded, every load is positive and at most the capacity, and the total
dispensed equals the total requested. -/
theorem batchWash_exact (c : ℕ) (hc : 1 ≤ c) :
    ∀ (fuel : ℕ) (rem : List ℚ), (∀ r ∈ rem, IsNatQ r) →
      rem.sum ≤ (fuel : ℚ) →
      ((_perform_batch_wash_distribution (c : ℚ) fuel rem).2.sum = 0
       ∧ (((_perform_batch_wash_distribution (c : ℚ) fuel rem).1.map
            WashCycleRec.dispensed).sum = rem.sum)
       ∧ ∀ w ∈ (_perform_batch_wash_distribution (c : ℚ) fuel rem).1,
           w.load ≤ (c : ℚ) ∧ w.dispensed = w.load ∧ 0 < w.load) := by
  intro fuel
  induction fuel with
  | zero =>
    intro rem hnat hle
    have hsum0 : rem.sum = 0 :=
      le_antisymm (by simpa using hle) (list_sum_nonneg_of_natq hnat)
    simp [_perform_batch_wash_distribution, hsum0]
  | succ n ih =>
    intro rem hnat hle
    by_cases hrun : volEps < rem.sum
    · have hsumnat : IsNatQ rem.sum := IsNatQ.list_sum hnat
      have hsum1 : 1 ≤ rem.sum := hsumnat.one_le_of_eps_lt hrun
      have hcQ : (1 : ℚ) ≤ (c : ℚ) := by exact_mod_cast hc
      have hload_nat : IsNatQ (min (c : ℚ) rem.sum) :=
        IsNatQ.min ⟨c, rfl⟩ hsumnat
      have hload_le_sum : min (c : ℚ) rem.sum ≤ rem.sum := min_le_right _ _
      have hload1 : 1 ≤ min (c : ℚ) rem.sum := le_min hcQ hsum1
      have hleft : (distributeCycle (min (c : ℚ) rem.sum) rem).1 = 0 :=
        distributeCycle_leftover_zero rem _ hload_nat hnat hload_le_sum
      have hacct := distributeCycle_sum (min (c : ℚ) rem.sum) rem
      rw [hleft] at hacct
      have hrem' : (distributeCycle (min (c : ℚ) rem.sum) rem).2.sum
          = rem.sum - min (c : ℚ) rem.sum := by linarith
      have hnat' : ∀ r ∈ (distributeCycle (min (c : ℚ) rem.sum) rem).2, IsNatQ r :=
        (distributeCycle_nat rem _ hload_nat hnat).2
      have hle' : (distributeCycle (min (c : ℚ) rem.sum) rem).2.sum ≤ (n : ℚ) := by
        rw [hrem']
        push_cast at hle ⊢
        linarith
      obtain ⟨ihz, ihsum, ihmem⟩ := ih _ hnat' hle'
      unfold _perform_batch_wash_distribution
      rw [if_pos hrun]
      refine ⟨by simpa using ihz, ?_, ?_⟩
      · simp only [List.map_cons, List.sum_cons]
        rw [ihsum, hrem', hleft]
        ring
      · intro w hw
        rcases List.mem_cons.mp hw with rfl | hw'
        · refine ⟨min_le_left _ _, ?_, ?_⟩
          · simp [hleft]
          · linarith
        · exact ihmem w hw'
    · have hsum0 : rem.sum = 0 :=
        (IsNatQ.list_sum hnat).eq_zero_of_le_eps (not_lt.mp hrun)
      unfold _perform_batch_wash_distribution
      rw [if_neg hrun]
      simp [hsum0]

/-- C4 counterexample: a single recipient with the strictly positive need
`1/20000 µL = 0.00005 µL`.  The total sits at or below the loop's `0.0001`
termination epsilon, so the loop exits immediately having dispensed nothing:
the total dispensed is `0`, not `Σ vi`, refuting the claim's exactness for
arbitrary positive needs. -/
theorem batch_wash_distribution_c4_counterexample :
    (0 : ℚ) < 1 / 20000
    ∧ _perform_batch_wash_distribution 800 5 [1 / 20000] = ([], [1 / 20000])
    ∧ (((_perform_batch_wash_distribution 800 5 [1 / 20000]).1.map
          WashCycleRec.dispensed).sum = 0)
    ∧ ((0 : ℚ) ≠ ([(1 : ℚ) / 20000]).sum) := by
  have heval : _perform_batch_wash_distribution 800 5 [1 / 20000] = ([], [1 / 20000]) := by
    norm_num [_perform_batch_wash_distribution, volEps]
  refine ⟨by norm_num, heval, by rw [heval]; simp, by norm_num⟩

/-- C4 (amended): for a batch-wash group whose positive needs `v1..vN` and
load capacity `C ≥ 1` are whole numbers of µL (so clear of the loop's
`0.0001` dust band — true of every practical wash volume), the
load-and-distribute loop terminates within `Σ vi` cycles with every need
satisfied, each cycle dispenses exactly what it loaded, no cycle loads or
dispenses more than `C`, and the total dispensed across the group equals
`Σ vi`. -/
theorem batch_wash_distribution_c4 :
    ∀ (c fuel : ℕ) (needs : List ℚ),
      1 ≤ c → (∀ r ∈ needs, IsNatQ r) → needs.sum ≤ (fuel : ℚ) →
      ((_perform_batch_wash_distribution (c : ℚ) fuel needs).2.sum = 0
       ∧ (((_perform_batch_wash_distribution (c : ℚ) fuel needs).1.map
            WashCycleRec.dispensed).sum = needs.sum)
       ∧ ∀ w ∈ (_perform_batch_wash_distribution (c : ℚ) fuel needs).1,
           w.load ≤ (c : ℚ) ∧ w.dispensed ≤ (c : ℚ) ∧ w.dispensed = w.load) := by
  intro c fuel needs hc hnat hle
  obtain ⟨hz, hsum, hmem⟩ := batchWash_exact c hc fuel needs hnat hle
  refine ⟨hz, hsum, ?_⟩
  intro w hw
  obtain ⟨hwc, hwd, _⟩ := hmem w hw
  exact ⟨hwc, hwd ▸ hwc, hwd⟩

/-- C4 witness: capacity 800 µL, needs 300 µL and 700 µL, enough fuel. -/
theorem batch_wash_distribution_c4_witness :
    ((_perform_batch_wash_distribution ((800 : ℕ) : ℚ) 1000 [300, 700]).2.sum = 0
     ∧ (((_perform_batch_wash_distribution ((800 : ℕ) : ℚ) 1000 [300, 700]).1.map
          WashCycleRec.dispensed).sum = ([(300 : ℚ), 700]).sum)
     ∧ ∀ w ∈ (_perform_batch_wash_distribution ((800 : ℕ) : ℚ) 1000 [300, 700]).1,
         w.load ≤ ((800 : ℕ) : ℚ) ∧ w.dispensed ≤ ((800 : ℕ) : ℚ)
           ∧ w.dispensed = w.load) :=
  batch_wash_distribution_c4 800 1000 [300, 700] (by norm_num)
    (by
      intro r hr
      rcases List.mem_cons.mp hr with rfl | hr'
      · exact ⟨300, by norm_num⟩
      · rcases List.mem_singleton.mp hr' with rfl
        exact ⟨700, by norm_num⟩)
    (by norm_num)

/-- C1 counterexample: with every tip consumed and one submitted task,
`run_seq` transmits the initial safety tip-eject command batch — a
non-empty list of primitive commands — *before* the first tip-availability
check, and only then stops with the no-tips error.  This refutes the
claim that no line is transmitted prior to the tip-availability check. -/
theorem run_seq_no_tips_c1_counterexample :
    runSeqEvents fns₀ 5 (fun _ => false)
        [{ line := 1, source := "Falcon A1", dest := "96Well A1", vol := 100,
           volatile := false, washVol := 0, washTimes := 0, washSrc := "" }]
      = [RunEvent.sentBatch fns₀.ejectCmds, RunEvent.noTipsError 1]
    ∧ fns₀.ejectCmds ≠ [] := by
  constructor
  · rfl
  · simp [fns₀, _get_eject_tip_commands]

/-- C1 (amended): submitting a transfer Task list while no tip remains
fresh stops the run with the no-tips (resource-exhaustion) hard stop at the
first task's tip-availability check, and nothing of the tasks themselves —
no pick, transfer or wash command — is ever sent; however the initial
safety tip-eject command list has already been transmitted before that
first check, so exactly one command batch (the safety eject) precedes the
error.  This holds for every command-generator instantiation, batch fuel
and task content. -/
theorem run_seq_no_tips_c1 {α : Type} :
    ∀ (fns : RunSeqFns α) (batchFuel : ℕ) (inv : String → Bool)
      (t : TransferTask) (rest : List TransferTask),
      (∀ k ∈ tipKeys, inv k = false) →
      runSeqEvents fns batchFuel inv (t :: rest)
        = [RunEvent.sentBatch fns.ejectCmds, RunEvent.noTipsError t.line] := by
  intro fns fuel inv t rest hall
  have hnone : _find_next_available_tip inv = none := by
    unfold _find_next_available_tip
    rw [List.find?_eq_none]
    intro x hx
    simp [hall x hx]
  unfold runSeqEvents
  simp only [runSeqPhase1, hnone]

/-- C1 witness: the amended theorem at the concrete default instantiation,
an empty tip inventory and one concrete task. -/
theorem run_seq_no_tips_c1_witness :
    runSeqEvents fns₀ 3 (fun _ => false)
        [{ line := 7, source := "Eppi C2", dest := "HPLC D1", vol := 250,
           volatile := true, washVol := 300, washTimes := 1, washSrc := "Wash A" }]
      = [RunEvent.sentBatch fns₀.ejectCmds, RunEvent.noTipsError 7] :=
  run_seq_no_tips_c1 fns₀ 3 (fun _ => false)
    { line := 7, source := "Eppi C2", dest := "HPLC D1", vol := 250,
      volatile := true, washVol := 300, washTimes := 1, washSrc := "Wash A" }
    [] (fun _ _ => rfl)

end LiquidHandler
